import Mathlib

/-!
Verification of the hedgehog request-hedging library.

The Go source is shallowly embedded below.  Machine integers (Go int64) are
modelled as ℤ with explicit wraparound where overflow matters; time.Duration
is its int64 nanosecond count; float64 percentile arithmetic is modelled
exactly over ℚ (every concrete value used in the theorems below is exactly
representable in float64, and the products involved are computed exactly by
float64 arithmetic at these magnitudes); fallible operations (Go panics:
division by zero, out-of-range slice indexing) return Option.  Concurrency
is modelled by the deterministic data flow the code fixes: the collector of
multiRoundTrip is a fold over the channel items in arrival order, and the
goroutine/wait structure of the two engine revisions is embedded as the
ordered list of synchronisation actions the dispatching goroutine performs.
-/

namespace Hedgehog

/-- Signed 64-bit wraparound: maps ℤ onto the representative in
[-2^63, 2^63) of its class mod 2^64, as Go int64 arithmetic does. -/
def wrap64 (x : ℤ) : ℤ := (x + 2 ^ 63) % 2 ^ 64 - 2 ^ 63

/-- Go math.Round: nearest integer, rounding half away from zero. -/
def goRound (q : ℚ) : ℤ := if q < 0 then -⌊-q + 1 / 2⌋ else ⌊q + 1 / 2⌋

/-- The request fingerprint the library inspects: method and full URL. -/
structure Request where
  method : String
  url : String
deriving DecidableEq

/-- The only response attribute the library inspects: the status code. -/
structure Response where
  statusCode : ℤ
deriving DecidableEq

/-- resource check error (ErrResourceUnexpectedResponseCode, part_002 line 15):
carries the offending status code. -/
inductive CheckErr
  | unexpectedResponseCode (statusCode : ℤ)
deriving DecidableEq

/-- The static resource state (src/unnamed/part_002 lines 34-39): method,
base delay (ns) and the allowed status-code set, built from the allowedCodes
list as the Go map.  The URL regexp is not inspected by any claim settled
here and is omitted. -/
structure StaticRes where
  method : String
  delay : ℤ
  codes : List ℤ
deriving DecidableEq

/-- static.Check, src/unnamed/part_002 lines 72-77: error on a non-member
status code, nil otherwise. -/
def static.Check (r : StaticRes) (resp : Response) : Option CheckErr :=
  if ¬r.codes.contains resp.statusCode then
    some (CheckErr.unexpectedResponseCode resp.statusCode)
  else none

/-- static.Check of the src/resources.go revision, lines 91-96: both branches
of the membership test return nil. -/
def static.CheckV1 (r : StaticRes) (resp : Response) : Option CheckErr :=
  if ¬r.codes.contains resp.statusCode then none else none

/-- Mutable statistics of the average resource (src/unnamed/part_002 lines
83-88) together with its configured base delay and capacity. -/
structure AvgState where
  delay : ℤ
  sum : ℤ
  count : ℤ
  capacity : ℤ
deriving DecidableEq

/-- NewResourceAverage, src/unnamed/part_002 lines 96-104: negative capacity
is clamped to math.MaxInt16; statistics start at zero.  Matching fields are
omitted as in StaticRes. -/
def NewResourceAverage (delay capacity : ℤ) : AvgState :=
  { delay := delay, sum := 0, count := 0
    capacity := if capacity < 0 then 32767 else capacity }

/-- average.After, src/unnamed/part_002 lines 106-113.  Returns the delay
time.After is called with; none models the Go division-by-zero run-time
error (sum / count with count = 0, reachable when capacity ≤ count = 0). -/
def average.After (r : AvgState) : Option ℤ :=
  if r.capacity ≤ r.count then
    if r.count = 0 then none else some (r.sum.tdiv r.count)
  else some r.delay

/-- The body of the completion callback returned by average.Hook,
src/unnamed/part_002 lines 115-131, applied to the observed latency d.
Every int64 operation wraps.  oldval is the pre-add sum and count the
post-increment count, exactly as the Go reads them (sequential model).
Int.tdiv is Go integer division (truncation toward zero); its divisor
count is zero only if the stored count was the wrap of -1, which no
int64-bounded run reaches. -/
def average.hookUpdate (r : AvgState) (d : ℤ) : AvgState :=
  let oldval := r.sum
  let newval := wrap64 (r.sum + d)
  let count := wrap64 (r.count + 1)
  if newval < 0 ∨ wrap64 (r.capacity * 2) < count then
    let val := wrap64 (wrap64 (oldval.tdiv count) * wrap64 (r.capacity + 1))
    { r with sum := val, count := wrap64 (r.capacity + 1) }
  else
    { r with sum := newval, count := count }

/-- Modelled from the spec, §4.1 completion update for Average: add the
latency to the signed 64-bit sum accumulator; increment count; then if the
sum became negative or count exceeds 2·C, renormalise with
mean = sum_before / count (truncated division), storing mean·(C+1) into the
64-bit sum and C+1 into count. -/
def specAverageUpdate (r : AvgState) (d : ℤ) : AvgState :=
  let sum := wrap64 (r.sum + d)
  let count := r.count + 1
  if sum < 0 ∨ 2 * r.capacity < count then
    let mean := r.sum.tdiv count
    { r with sum := wrap64 (mean * (r.capacity + 1)), count := r.capacity + 1 }
  else
    { r with sum := sum, count := count }

/-- Mutable statistics of the percentiles resource (src/unnamed/part_002
lines 133-139) together with its configured base delay, percentile and
capacity.  The same state shape carries the dynamic resource of the
src/resources.go revision (lines 104-110). -/
structure PercState where
  delay : ℤ
  percentile : ℚ
  capacity : ℤ
  latencies : List ℤ
deriving DecidableEq

/-- NewResourcePercentiles, src/unnamed/part_002 lines 148-162: the
percentile is |p| clamped to at most 1, negative capacity is clamped to
math.MaxInt16, the buffer starts empty. -/
def NewResourcePercentiles (delay : ℤ) (percentile : ℚ) (capacity : ℤ) : PercState :=
  { delay := delay
    percentile := if 1 < |percentile| then 1 else |percentile|
    capacity := if capacity < 0 then 32767 else capacity
    latencies := [] }

/-- percentiles.After, src/unnamed/part_002 lines 164-177: if the buffer
length l reaches capacity/2 (Go int64 division), sort a snapshot ascending
and take element round(l·percentile) - 1; none models the Go
index-out-of-range run-time error.  Otherwise return the base delay. -/
def percentiles.After (r : PercState) : Option ℤ :=
  let l : ℤ := r.latencies.length
  if r.capacity.tdiv 2 ≤ l then
    let lat := List.insertionSort (· ≤ ·) r.latencies
    let i := goRound ((r.latencies.length : ℚ) * r.percentile) - 1
    if i < 0 then none else lat[i.toNat]?
  else some r.delay

/-- dynamic.After, src/resources.go lines 128-141: same as
percentiles.After except the index is round(l·percentile) without the
subtraction of one. -/
def dynamic.After (r : PercState) : Option ℤ :=
  let l : ℤ := r.latencies.length
  if r.capacity.tdiv 2 ≤ l then
    let lat := List.insertionSort (· ≤ ·) r.latencies
    let i := goRound ((r.latencies.length : ℚ) * r.percentile)
    if i < 0 then none else lat[i.toNat]?
  else some r.delay

/-- The body of the completion callback returned by percentiles.Hook,
src/unnamed/part_002 lines 179-191, applied to the observed latency d:
append; when the length reaches capacity, reslice from capacity/2. -/
def percentiles.hookUpdate (r : PercState) (d : ℤ) : PercState :=
  let ls := r.latencies ++ [d]
  { r with latencies :=
      if r.capacity ≤ (ls.length : ℤ) then ls.drop (r.capacity.tdiv 2).toNat else ls }

/-- dynamic.Acknowledge, src/resources.go lines 143-150: append; when the
length exceeds capacity·2, reslice from capacity. -/
def dynamic.Acknowledge (r : PercState) (d : ℤ) : PercState :=
  let ls := r.latencies ++ [d]
  { r with latencies :=
      if 2 * r.capacity < (ls.length : ℤ) then ls.drop r.capacity.toNat else ls }

/-- Modelled from the spec, §4.1 Percentile delay: if l ≥ ⌈C/2⌉, the delay
is element clamp(⌊l·p⌋, 0, l-1) of the ascending-sorted snapshot, else the
base delay (the claim C5 formula; the spec's preferred clamped index). -/
def specPercentileDelay (r : PercState) : Option ℤ :=
  let l : ℤ := r.latencies.length
  if (r.capacity + 1).tdiv 2 ≤ l then
    let lat := List.insertionSort (· ≤ ·) r.latencies
    let i := min (max ⌊(r.latencies.length : ℚ) * r.percentile⌋ 0) (l - 1)
    if i < 0 then none else lat[i.toNat]?
  else some r.delay

/-- Variant statistics state of a matched resource, for the frame property
of the attempt closure. -/
inductive ResState
  | staticState
  | averageState (s : AvgState)
  | percentilesState (s : PercState)
deriving DecidableEq

/-- Invoking the completion callback produced by Hook: static resources
record nothing (part_002 lines 79-81); the dynamic variants record the
observed latency d. -/
def hookApply : ResState → ℤ → ResState
  | .staticState, _ => .staticState
  | .averageState s, d => .averageState (average.hookUpdate s d)
  | .percentilesState s, d => .percentilesState (percentiles.hookUpdate s d)

/-- An item an attempt sends on the result channel: a validated response or
an error. -/
inductive RTItem (ε ρ : Type)
  | err (e : ε)
  | rsp (r : ρ)
deriving DecidableEq

/-- Error an attempt can enqueue: an error of the underlying transport
(opaque, also covering cancellation) or a validation failure. -/
inductive AttemptErr
  | transportFailure (e : ℤ)
  | checkFailure (e : CheckErr)
deriving DecidableEq

/-- The roundTrip attempt closure of multiRoundTrip, src/transport.go lines
76-91, for the matched resource (codes r, statistics st).  outcome is what
the underlying transport returned for the cloned request (an error also
models a cancelled attempt); d is the wall time Hook's callback observes.
On a transport error or a failed Check the error is enqueued and the hook
callback is not invoked; only after a passing Check is the callback h run
and the response enqueued. -/
def roundTripAttempt (r : StaticRes) (st : ResState) (outcome : Except ℤ Response)
    (d : ℤ) : ResState × RTItem AttemptErr Response :=
  match outcome with
  | .error e => (st, .err (.transportFailure e))
  | .ok resp =>
    match static.Check r resp with
    | some ce => (st, .err (.checkFailure ce))
    | none => (hookApply st d, .rsp resp)

/-- The collector goroutine of multiRoundTrip, src/transport.go lines 52-75,
with no external cancellation: fuel is the number of loop iterations
(calls+1); the list holds the channel items in arrival order; the
accumulator is the err named return (kept only if still nil).  A response
sets resp, clears err and stops the loop; when the fuel runs out the named
returns stand. -/
def collectGo : ℕ → List (RTItem ℤ ℤ) → Option ℤ → Option ℤ × Option ℤ
  | 0, _, e => (none, e)
  | _ + 1, [], e => (none, e)
  | n + 1, .err x :: rest, e => collectGo n rest (if e.isNone then some x else e)
  | _ + 1, .rsp x :: _, _ => (some x, none)

/-- The (resp, err) pair multiRoundTrip returns once its collector has
consumed the calls+1 channel items. -/
def multiRoundTripCollect (calls : ℕ) (items : List (RTItem ℤ ℤ)) :
    Option ℤ × Option ℤ :=
  collectGo (calls + 1) items none

/-- The first validated response among the channel items, in arrival order. -/
def firstRespOf (items : List (RTItem ℤ ℤ)) : Option ℤ :=
  items.findSome? fun it => match it with | .rsp x => some x | .err _ => none

/-- The first error among the channel items, in arrival order. -/
def firstErrOf (items : List (RTItem ℤ ℤ)) : Option ℤ :=
  items.findSome? fun it => match it with | .err x => some x | .rsp _ => none

/-- A registry entry as the engines see it: its Match predicate, tagged for
identification. -/
structure MatcherRes where
  id : ℕ
  Match : Request → Bool

/-- How a RoundTrip call handles a request: hedged through the identified
resource, or delegated to the underlying transport. -/
inductive Dispatched
  | hedged (id : ℕ)
  | passthrough
deriving DecidableEq

/-- The resource scan of transport.RoundTrip, src/transport.go lines 40-44:
returns inside the loop on the first match. -/
def transport.findMatch : List MatcherRes → Request → Option MatcherRes
  | [], _ => none
  | r :: rest, q => if r.Match q then some r else transport.findMatch rest q

/-- transport.RoundTrip, src/transport.go lines 39-46: hedge through the
first match, else delegate. -/
def transport.RoundTripDispatch (rs : List MatcherRes) (q : Request) : Dispatched :=
  match transport.findMatch rs q with
  | some r => .hedged r.id
  | none => .passthrough

/-- The resource scan of hedging.RoundTrip, src/hedging.go lines 21-26: the
loop never breaks, so the resource variable keeps the last match. -/
def hedging.findMatch (rs : List MatcherRes) (q : Request) : Option MatcherRes :=
  rs.foldl (fun acc r => if r.Match q then some r else acc) none

/-- hedging.RoundTrip, src/hedging.go lines 20-29: hedge through the scanned
resource if one matched, else delegate. -/
def hedging.RoundTripDispatch (rs : List MatcherRes) (q : Request) : Dispatched :=
  match hedging.findMatch rs q with
  | some r => .hedged r.id
  | none => .passthrough

/-- Synchronisation actions the dispatching goroutine of an engine performs,
in program order. -/
inductive EngineAction
  | spawnCollector
  | spawnAttempt
  | awaitReadiness
  | awaitGroup
deriving DecidableEq

/-- Program-order actions of multiRoundTrip, src/transport.go lines 48-98:
spawn the collector, spawn the primary attempt, receive from rs.After(),
spawn the calls hedged attempts, wait for the group. -/
def multiRoundTripScript (calls : ℕ) : List EngineAction :=
  [.spawnCollector, .spawnAttempt, .awaitReadiness]
    ++ List.replicate calls .spawnAttempt ++ [.awaitGroup]

/-- Program-order actions of hedging.RoundTrip once a resource matched,
src/hedging.go lines 30-64 with times = FanoutTimes+1: spawn the drain
goroutine; for i < times spawn an attempt, receiving from resource.After()
after the first spawn only when times > 1; wait for the group. -/
def hedgingScript (fanout : ℕ) : List EngineAction :=
  let times := fanout + 1
  [.spawnCollector]
    ++ ((List.range times).map fun i =>
          [EngineAction.spawnAttempt]
            ++ (if i = 0 ∧ 1 < times then [EngineAction.awaitReadiness] else [])).flatten
    ++ [.awaitGroup]

/-- An http.RoundTripper value: the platform default, some other concrete
transport, or the hedged wrapper around an internal transport
(NewRoundTripper, src/transport.go lines 35-37). -/
inductive RT
  | defaultTransport
  | base (id : ℕ)
  | hedged (internal : RT) (calls : ℕ)
deriving DecidableEq

/-- NewRoundTripper, src/transport.go lines 35-37 (resources omitted: the
claim concerns only the wrapping). -/
def NewRoundTripper (internal : RT) (calls : ℕ) : RT := .hedged internal calls

/-- An http.Client object on the heap: its Transport field (nil-able) and a
stand-in for all its other fields (Jar, Timeout, ...). -/
structure GoClient where
  transport : Option RT
  other : ℕ
deriving DecidableEq

/-- The heap of client objects: pointers are indices; http.DefaultClient is
the object at defaultClientRef. -/
structure Heap where
  clients : ℕ → GoClient
  defaultClientRef : ℕ

/-- NewHTTPClient, src/transport.go lines 12-21: substitute the default
client for nil, substitute the default transport for a nil Transport field,
then overwrite the Transport field in place with the hedged wrapper and
return the same pointer. -/
def NewHTTPClient (client : Option ℕ) (calls : ℕ) (h : Heap) : ℕ × Heap :=
  let r := match client with
    | none => h.defaultClientRef
    | some r => r
  let c := h.clients r
  let t := match c.transport with
    | none => RT.defaultTransport
    | some t => t
  (r, { h with clients :=
        Function.update h.clients r { c with transport := some (NewRoundTripper t calls) } })


/-! ### Helper lemmas -/

theorem firstRespOf_cons_err (x : ℤ) (tl : List (RTItem ℤ ℤ)) :
    firstRespOf (.err x :: tl) = firstRespOf tl := by
  simp [firstRespOf]

theorem firstErrOf_cons_err (x : ℤ) (tl : List (RTItem ℤ ℤ)) :
    firstErrOf (.err x :: tl) = some x := by
  simp [firstErrOf]

/-- The collector loop consumes exactly as many items as it has fuel: the
result is the first response (with the error slot cleared), else the error
accumulator if already set, else the first error. -/
theorem collectGo_spec (items : List (RTItem ℤ ℤ)) :
    ∀ e, collectGo items.length items e =
      match firstRespOf items with
      | some x => (some x, none)
      | none => (none, match e with | some y => some y | none => firstErrOf items) := by
  induction items with
  | nil => intro e; cases e <;> simp [collectGo, firstRespOf, firstErrOf]
  | cons hd tl ih =>
    intro e
    cases hd with
    | rsp x => simp [collectGo, firstRespOf]
    | err x =>
      have h := ih (if e.isNone then some x else e)
      simp only [List.length_cons, collectGo] at h ⊢
      rw [h, firstRespOf_cons_err, firstErrOf_cons_err]
      cases hr : firstRespOf tl <;> cases e <;> simp [hr]

/-- The last-match fold of hedging.RoundTrip equals first match on the
reversed registry, for any accumulator. -/
theorem hedging_foldl_eq (q : Request) :
    ∀ (rs : List MatcherRes) (acc : Option MatcherRes),
      rs.foldl (fun acc r => if r.Match q then some r else acc) acc
        = match rs.reverse.find? (fun r => r.Match q) with
          | some r => some r
          | none => acc := by
  intro rs
  induction rs with
  | nil => intro acc; simp
  | cons hd tl ih =>
    intro acc
    simp only [List.foldl_cons, List.reverse_cons, List.find?_append]
    rw [ih]
    cases hf : tl.reverse.find? (fun r => r.Match q) with
    | some r => simp [Option.or]
    | none =>
      by_cases hm : hd.Match q <;> simp [hm, Option.or, List.find?]

/-- The first-match loop of transport.RoundTrip is List.find?. -/
theorem transport_findMatch_eq (q : Request) (rs : List MatcherRes) :
    transport.findMatch rs q = rs.find? (fun r => r.Match q) := by
  induction rs with
  | nil => rfl
  | cons hd tl ih =>
    by_cases h : hd.Match q <;>
      simp [transport.findMatch, List.find?, h, ih]

/-! ### Claim theorems -/

/-- C1: with fan-out N (calls), the collector of multiRoundTrip consumes the
N+1 channel items; if any attempt enqueued a validated response, the call
returns the first such response in channel order with a nil error no matter
how many errors preceded it; if all N+1 attempts enqueued errors, the call
returns the first error and discards the rest. -/
theorem multiRoundTrip_first_success_else_first_error (calls : ℕ)
    (items : List (RTItem ℤ ℤ)) (hlen : items.length = calls + 1) :
    (∀ x, firstRespOf items = some x →
        multiRoundTripCollect calls items = (some x, none))
    ∧ (firstRespOf items = none →
        multiRoundTripCollect calls items = (none, firstErrOf items)) := by
  have h := collectGo_spec items none
  rw [hlen] at h
  unfold multiRoundTripCollect
  constructor
  · intro x hx
    rw [h, hx]
  · intro hn
    rw [h, hn]

/-- Witness for C1: among [error 5, response 9] the response 9 wins with nil
error; among [error 5, error 7] the first error 5 is returned. -/
theorem multiRoundTrip_first_success_else_first_error_witness :
    multiRoundTripCollect 1 [RTItem.err 5, RTItem.rsp 9] = (some 9, none)
    ∧ multiRoundTripCollect 1 [RTItem.err 5, RTItem.err 7] = (none, some 5) := by
  constructor
  · exact (multiRoundTrip_first_success_else_first_error 1
      [RTItem.err 5, RTItem.rsp 9] (by decide)).1 9 (by decide)
  · rw [(multiRoundTrip_first_success_else_first_error 1
      [RTItem.err 5, RTItem.err 7] (by decide)).2 (by decide)]
    decide

/-- C2 counterexample: two resources that both match the request; the claim
says the request is associated with the first, but hedging.RoundTrip
associates it with the second (its scan keeps the last match). -/
theorem hedging_last_match_counterexample :
    (MatcherRes.mk 1 fun _ => true).Match ⟨"GET", "/profile"⟩ = true
    ∧ hedging.RoundTripDispatch
        [⟨1, fun _ => true⟩, ⟨2, fun _ => true⟩] ⟨"GET", "/profile"⟩
        = Dispatched.hedged 2
    ∧ Dispatched.hedged 2 ≠ Dispatched.hedged 1 :=
  ⟨rfl, rfl, by decide⟩

/-- C2 (amended): transport.RoundTrip associates a request with the first
resource in configuration order whose Match accepts it, while the
hedging.RoundTrip revision associates it with the last such resource (the
first of the reversed registry); both delegate to the underlying transport
when no resource matches. -/
theorem roundTrip_dispatch_first_vs_last (rs : List MatcherRes) (q : Request) :
    transport.RoundTripDispatch rs q
      = (match rs.find? (fun r => r.Match q) with
         | some r => Dispatched.hedged r.id
         | none => Dispatched.passthrough)
    ∧ hedging.RoundTripDispatch rs q
      = (match rs.reverse.find? (fun r => r.Match q) with
         | some r => Dispatched.hedged r.id
         | none => Dispatched.passthrough) := by
  constructor
  · unfold transport.RoundTripDispatch
    rw [transport_findMatch_eq]
  · unfold hedging.RoundTripDispatch hedging.findMatch
    rw [hedging_foldl_eq]
    cases rs.reverse.find? (fun r => r.Match q) <;> rfl

/-- C3: the code is wrong and the claim right for the src/resources.go
revision: its Check returns nil for every response, here evaluated at
allowed codes {200} and status 404 where the claim requires
ErrResourceUnexpectedResponseCode{404}; the src/unnamed/part_002
revision does satisfy the claim: nil exactly on member codes, the error
carrying the offending code otherwise. -/
theorem static_check_member_iff_and_v1_nil :
    (∀ (r : StaticRes) (resp : Response),
        static.Check r resp
          = if r.codes.contains resp.statusCode then none
            else some (CheckErr.unexpectedResponseCode resp.statusCode))
    ∧ static.CheckV1 ⟨"GET", 1000000, [200]⟩ ⟨404⟩ = none
    ∧ static.Check ⟨"GET", 1000000, [200]⟩ ⟨404⟩
        = some (CheckErr.unexpectedResponseCode 404) := by
    refine ⟨fun r resp => ?_, by decide, by decide⟩
    unfold static.Check
    by_cases h : r.codes.contains resp.statusCode <;> simp [h]

/-- C8: an attempt updates the matched resource statistics exactly when the
underlying transport succeeded and the response passed Check; transport
failures (including cancelled attempts) and validation failures leave the
statistics untouched and the Hook completion callback uninvoked. -/
theorem stats_updated_only_on_validated_success (r : StaticRes) (st : ResState)
    (o : Except ℤ Response) (d : ℤ) :
    (roundTripAttempt r st o d).1
      = if (match o with
            | .ok resp => r.codes.contains resp.statusCode
            | .error _ => false) then hookApply st d else st := by
  cases o with
  | error e => rfl
  | ok resp =>
    by_cases h : resp.statusCode ∈ r.codes <;>
      simp [roundTripAttempt, static.Check, h]

/-- C9 counterexample: with fan-out 0, multiRoundTrip still performs the
receive from rs.After() before it can return, so the call does wait on the
readiness signal, contradicting the claim. -/
theorem multiRoundTrip_readiness_wait_counterexample :
    EngineAction.awaitReadiness ∈ multiRoundTripScript 0 := by decide

/-- C9 (amended): with fan-out 0 both engine revisions spawn only the
primary attempt; the hedging revision skips the readiness wait (its guard
times > 1 fails), but the transport revision still receives from the
readiness signal before returning. -/
theorem fanout_zero_primary_only :
    (multiRoundTripScript 0).count EngineAction.spawnAttempt = 1
    ∧ (hedgingScript 0).count EngineAction.spawnAttempt = 1
    ∧ EngineAction.awaitReadiness ∉ hedgingScript 0
    ∧ EngineAction.awaitReadiness ∈ multiRoundTripScript 0 := by decide

/-- C10: for a non-nil client pointer, NewHTTPClient returns the very same
pointer, overwrites that object's Transport field in place with the hedged
round tripper (wrapping the previous transport, or the default transport if
the field was nil), leaves the object's other fields intact, and touches no
other heap object. -/
theorem NewHTTPClient_mutates_in_place (h : Heap) (r calls : ℕ) :
    (NewHTTPClient (some r) calls h).1 = r
    ∧ ((NewHTTPClient (some r) calls h).2.clients r).transport
        = some (NewRoundTripper ((h.clients r).transport.getD RT.defaultTransport) calls)
    ∧ ((NewHTTPClient (some r) calls h).2.clients r).other = (h.clients r).other
    ∧ (NewHTTPClient (some r) calls h).2.clients
        = Function.update h.clients r ((NewHTTPClient (some r) calls h).2.clients r) := by
  unfold NewHTTPClient
  refine ⟨rfl, ?_, ?_, ?_⟩ <;>
    cases ht : (h.clients r).transport <;>
      simp [ht, Function.update_same, NewRoundTripper]


/-- wrap64 is the identity on values already in the int64 range. -/
theorem wrap64_eq_self {x : ℤ} (h1 : -(2 ^ 63) ≤ x) (h2 : x < 2 ^ 63) :
    wrap64 x = x := by
  unfold wrap64
  rw [Int.emod_eq_of_lt (by omega) (by omega)]
  omega

/-- goRound of a nonnegative rational is nonnegative. -/
theorem goRound_nonneg {q : ℚ} (h : 0 ≤ q) : 0 ≤ goRound q := by
  unfold goRound
  rw [if_neg (not_lt.mpr h)]
  exact Int.floor_nonneg.mpr (by linarith)

/-- goRound is bounded by any integer bound of its argument. -/
theorem goRound_le_of_le {q : ℚ} {n : ℤ} (h0 : 0 ≤ q) (h : q ≤ (n : ℚ)) :
    goRound q ≤ n := by
  unfold goRound
  rw [if_neg (not_lt.mpr h0)]
  have h2 : ⌊(q + 1 / 2 : ℚ)⌋ < n + 1 := Int.floor_lt.mpr (by push_cast; linarith)
  omega

/-- C7: the Hook completion update of the Average resource performs exactly
the spec renormalisation: add the latency to the 64-bit sum, increment
count, and on signed overflow of the sum or count exceeding 2·C replace sum
by (sum_before / count)·(C+1) and count by C+1.  The hypotheses say the
state is a valid int64 state with room for the increment, as every state
reached from a constructor within int64 bounds is. -/
theorem average_hook_matches_spec (r : AvgState) (d : ℤ)
    (hsum0 : 0 ≤ r.sum) (hsum : r.sum < 2 ^ 63)
    (hcount0 : 0 ≤ r.count) (hcount : r.count + 1 < 2 ^ 63)
    (hcap0 : 0 ≤ r.capacity) (hcap : 2 * r.capacity + 1 < 2 ^ 63) :
    average.hookUpdate r d = specAverageUpdate r d := by
  have hc1 : wrap64 (r.count + 1) = r.count + 1 := wrap64_eq_self (by omega) (by omega)
  have hc2 : wrap64 (r.capacity * 2) = 2 * r.capacity := by
    rw [wrap64_eq_self (by omega) (by omega), mul_comm]
  have hc3 : wrap64 (r.capacity + 1) = r.capacity + 1 := wrap64_eq_self (by omega) (by omega)
  have htd : r.sum.tdiv (r.count + 1) = r.sum / (r.count + 1) :=
    Int.tdiv_eq_ediv hsum0 (by omega)
  have htdle : r.sum.tdiv (r.count + 1) ≤ r.sum := by
    rw [htd]; exact Int.ediv_le_self _ hsum0
  have htd0 : 0 ≤ r.sum.tdiv (r.count + 1) := Int.tdiv_nonneg hsum0 (by omega)
  have hc4 : wrap64 (r.sum.tdiv (r.count + 1)) = r.sum.tdiv (r.count + 1) :=
    wrap64_eq_self (by omega) (by omega)
  unfold average.hookUpdate specAverageUpdate
  simp only [hc1, hc2, hc3, hc4]

/-- Witness for C7: a concrete non-renormalising update computed on both
sides. -/
theorem average_hook_matches_spec_witness :
    average.hookUpdate ⟨1, 5, 2, 3⟩ 4 = specAverageUpdate ⟨1, 5, 2, 3⟩ 4 :=
  average_hook_matches_spec ⟨1, 5, 2, 3⟩ 4 (by decide) (by decide) (by decide)
    (by decide) (by decide) (by decide)

/-- C4 counterexample: NewResourceAverage accepts capacity 0, and on the
fresh state (count = 0 ≥ capacity) After divides sum by count = 0; the
embedding returns none exactly where the Go code raises the run-time
division-by-zero error, so After does fail. -/
theorem average_after_div_zero_counterexample :
    average.After (NewResourceAverage 1000000 0) = none := by decide

/-- C4 (amended): Match is total by construction and After does not fail
provided: the Average capacity is at least 1; for the percentiles revision
the rounded index satisfies round(l·p) ≥ 1 (its upper bound round(l·p) ≤ l
already follows from p ≤ 1); for the dynamic revision round(l·p) ≤ l - 1.
These preconditions are exactly what the counterexamples (capacity 0, p at
the 0 or 1 endpoint) violate. -/
theorem resource_after_total_conditions :
    (∀ r : AvgState, 1 ≤ r.capacity → (average.After r).isSome = true)
    ∧ (∀ r : PercState, 0 ≤ r.percentile → r.percentile ≤ 1 →
        1 ≤ goRound ((r.latencies.length : ℚ) * r.percentile) →
        (percentiles.After r).isSome = true)
    ∧ (∀ r : PercState, 0 ≤ r.percentile →
        goRound ((r.latencies.length : ℚ) * r.percentile) ≤ (r.latencies.length : ℤ) - 1 →
        (dynamic.After r).isSome = true) := by
  refine ⟨fun r hc => ?_, fun r hp0 hp1 hge => ?_, fun r hp0 hle => ?_⟩
  · unfold average.After
    by_cases h : r.capacity ≤ r.count
    · rw [if_pos h, if_neg (by omega)]; rfl
    · rw [if_neg h]; rfl
  · simp only [percentiles.After]
    by_cases hsat : r.capacity.tdiv 2 ≤ (r.latencies.length : ℤ)
    · rw [if_pos hsat]
      have hq0 : (0 : ℚ) ≤ (r.latencies.length : ℚ) * r.percentile :=
        mul_nonneg (by positivity) hp0
      have hub : goRound ((r.latencies.length : ℚ) * r.percentile)
          ≤ (r.latencies.length : ℤ) := by
        refine goRound_le_of_le hq0 ?_
        calc (r.latencies.length : ℚ) * r.percentile
            ≤ (r.latencies.length : ℚ) * 1 :=
              mul_le_mul_of_nonneg_left hp1 (by positivity)
          _ = (r.latencies.length : ℚ) := mul_one _
      rw [if_neg (by omega)]
      have hlt : (goRound ((r.latencies.length : ℚ) * r.percentile) - 1).toNat
          < (List.insertionSort (· ≤ ·) r.latencies).length := by
        rw [List.length_insertionSort]; omega
      rw [List.getElem?_eq_getElem hlt]; rfl
    · rw [if_neg hsat]; rfl
  · simp only [dynamic.After]
    by_cases hsat : r.capacity.tdiv 2 ≤ (r.latencies.length : ℤ)
    · rw [if_pos hsat]
      have hq0 : (0 : ℚ) ≤ (r.latencies.length : ℚ) * r.percentile :=
        mul_nonneg (by positivity) hp0
      have h0 : 0 ≤ goRound ((r.latencies.length : ℚ) * r.percentile) :=
        goRound_nonneg hq0
      rw [if_neg (by omega)]
      have hlt : (goRound ((r.latencies.length : ℚ) * r.percentile)).toNat
          < (List.insertionSort (· ≤ ·) r.latencies).length := by
        rw [List.length_insertionSort]; omega
      rw [List.getElem?_eq_getElem hlt]; rfl
    · rw [if_neg hsat]; rfl

/-- Witness for C4 (amended): all three conjuncts applied at concrete
saturated or unsaturated states. -/
theorem resource_after_total_conditions_witness :
    (average.After ⟨7, 0, 0, 1⟩).isSome = true
    ∧ (percentiles.After ⟨9, 1, 1, [4]⟩).isSome = true
    ∧ (dynamic.After ⟨9, 1 / 2, 2, [4, 6]⟩).isSome = true :=
  ⟨resource_after_total_conditions.1 ⟨7, 0, 0, 1⟩ (by decide),
   resource_after_total_conditions.2.1 ⟨9, 1, 1, [4]⟩ (by norm_num) (by norm_num)
     (by norm_num [goRound]),
   resource_after_total_conditions.2.2 ⟨9, 1 / 2, 2, [4, 6]⟩ (by norm_num)
     (by norm_num [goRound])⟩

/-- C5 counterexample: capacity 3, one recorded latency 5, percentile 1,
base delay 100.  The claim formula saturates only at l ≥ ⌈3/2⌉ = 2 and so
yields the base delay 100, but percentiles.After saturates at the Go
integer division ⌊3/2⌋ = 1 and yields the recorded latency 5. -/
theorem percentile_delay_formula_counterexample :
    percentiles.After { delay := 100, percentile := 1, capacity := 3, latencies := [5] }
      = some 5
    ∧ specPercentileDelay { delay := 100, percentile := 1, capacity := 3, latencies := [5] }
      = some 100
    ∧ some (5 : ℤ) ≠ some (100 : ℤ) := by
  refine ⟨?_, ?_, by decide⟩
  · norm_num [percentiles.After, goRound]
    all_goals decide
  · norm_num [specPercentileDelay]
    all_goals decide

/-- C5 (amended): percentiles.After saturates once the buffer length l
reaches capacity/2 in Go integer division and then yields the element at
index round(l·p) - 1 of any ascending-sorted permutation of the buffer
(none modelling the index-out-of-range failure when that index is outside
[0, l)); below saturation it yields the base delay.  The dynamic revision
behaves identically with index round(l·p). -/
theorem percentile_after_sorted_formula (r : PercState) (s : List ℤ)
    (hp : r.latencies.Perm s) (hs : s.Sorted (· ≤ ·)) :
    percentiles.After r
      = (if r.capacity.tdiv 2 ≤ (r.latencies.length : ℤ) then
          (if goRound ((r.latencies.length : ℚ) * r.percentile) - 1 < 0 then none
           else s[(goRound ((r.latencies.length : ℚ) * r.percentile) - 1).toNat]?)
         else some r.delay)
    ∧ dynamic.After r
      = (if r.capacity.tdiv 2 ≤ (r.latencies.length : ℤ) then
          (if goRound ((r.latencies.length : ℚ) * r.percentile) < 0 then none
           else s[(goRound ((r.latencies.length : ℚ) * r.percentile)).toNat]?)
         else some r.delay) := by
  have hsort : List.insertionSort (· ≤ ·) r.latencies = s :=
    List.eq_of_perm_of_sorted ((List.perm_insertionSort _ _).trans hp)
      (List.sorted_insertionSort _ _) hs
  constructor
  · simp only [percentiles.After, hsort]
  · simp only [dynamic.After, hsort]

/-- Witness for C5 (amended): buffer [3, 1], capacity 2, percentile 1/2:
the sorted snapshot is [1, 3] and After yields its element at
round(2·(1/2)) - 1 = 0, the minimum 1. -/
theorem percentile_after_sorted_formula_witness :
    percentiles.After ⟨9, 1 / 2, 2, [3, 1]⟩ = some 1 := by
  rw [(percentile_after_sorted_formula ⟨9, 1 / 2, 2, [3, 1]⟩ [1, 3]
    (by decide) (by decide)).1]
  norm_num [goRound]

/-- C6 counterexample: NewResourcePercentiles accepts capacity 1, and then
the Hook completion update never removes anything (it drops ⌊1/2⌋ = 0
elements), so after three successful completions the buffer holds
3 > 2·C = 2 samples. -/
theorem percentiles_buffer_unbounded_counterexample :
    2 * (NewResourcePercentiles 1000000 (1 / 2) 1).capacity
      < ((percentiles.hookUpdate (percentiles.hookUpdate (percentiles.hookUpdate
          (NewResourcePercentiles 1000000 (1 / 2) 1) 7) 7) 7).latencies.length : ℤ) := by
  norm_num [NewResourcePercentiles, percentiles.hookUpdate]
  all_goals decide

/-- C6 (amended): the completion update keeps the buffer within 2·C and
always retains a suffix of the appended buffer (the most recent samples),
provided C ≥ 2 for the percentiles revision (which drops ⌊C/2⌋ oldest
samples when the length reaches C) and C ≥ 1 for the dynamic revision
(which drops the C oldest samples when the length exceeds 2·C); for the
capacities below these thresholds the drop count is zero and the buffer
grows without bound, as the counterexample shows. -/
theorem latency_buffer_bounded (r : PercState) (d : ℤ) :
    (2 ≤ r.capacity → (r.latencies.length : ℤ) ≤ 2 * r.capacity →
      ((percentiles.hookUpdate r d).latencies.length : ℤ) ≤ 2 * r.capacity
      ∧ (percentiles.hookUpdate r d).latencies.IsSuffix (r.latencies ++ [d]))
    ∧ (1 ≤ r.capacity → (r.latencies.length : ℤ) ≤ 2 * r.capacity →
      ((dynamic.Acknowledge r d).latencies.length : ℤ) ≤ 2 * r.capacity
      ∧ (dynamic.Acknowledge r d).latencies.IsSuffix (r.latencies ++ [d])) := by
  constructor
  · intro hc hlen
    have htd : r.capacity.tdiv 2 = r.capacity / 2 :=
      Int.tdiv_eq_ediv (by omega) (by omega)
    constructor
    · simp only [percentiles.hookUpdate, htd]
      by_cases h : r.capacity ≤ ((r.latencies ++ [d]).length : ℤ)
      · rw [if_pos h]
        simp only [List.length_drop, List.length_append, List.length_singleton] at *
        omega
      · rw [if_neg h]
        simp only [List.length_append, List.length_singleton] at *
        omega
    · simp only [percentiles.hookUpdate]
      by_cases h : r.capacity ≤ ((r.latencies ++ [d]).length : ℤ)
      · rw [if_pos h]; exact List.drop_suffix _ _
      · rw [if_neg h]
  · intro hc hlen
    constructor
    · simp only [dynamic.Acknowledge]
      by_cases h : 2 * r.capacity < ((r.latencies ++ [d]).length : ℤ)
      · rw [if_pos h]
        simp only [List.length_drop, List.length_append, List.length_singleton] at *
        omega
      · rw [if_neg h]
        simp only [List.length_append, List.length_singleton] at *
        omega
    · simp only [dynamic.Acknowledge]
      by_cases h : 2 * r.capacity < ((r.latencies ++ [d]).length : ℤ)
      · rw [if_pos h]; exact List.drop_suffix _ _
      · rw [if_neg h]

/-- Witness for C6 (amended): both conjuncts applied at a saturated
capacity-2 state. -/
theorem latency_buffer_bounded_witness :
    (((percentiles.hookUpdate ⟨5, 1 / 2, 2, [1, 2]⟩ 3).latencies.length : ℤ)
        ≤ 2 * (PercState.mk 5 (1 / 2) 2 [1, 2]).capacity
      ∧ (percentiles.hookUpdate ⟨5, 1 / 2, 2, [1, 2]⟩ 3).latencies.IsSuffix ([1, 2] ++ [3]))
    ∧ (((dynamic.Acknowledge ⟨5, 1 / 2, 2, [1, 2]⟩ 3).latencies.length : ℤ)
        ≤ 2 * (PercState.mk 5 (1 / 2) 2 [1, 2]).capacity
      ∧ (dynamic.Acknowledge ⟨5, 1 / 2, 2, [1, 2]⟩ 3).latencies.IsSuffix ([1, 2] ++ [3])) :=
  ⟨(latency_buffer_bounded ⟨5, 1 / 2, 2, [1, 2]⟩ 3).1 (by decide) (by decide),
   (latency_buffer_bounded ⟨5, 1 / 2, 2, [1, 2]⟩ 3).2 (by decide) (by decide)⟩

end Hedgehog
